import Mathlib

/-!
Verification of the Multi-Source Aggregation & Ranking Engine of the
Ai-travel-planner backend (`backend/app/agents/travel_booking_agent.py`,
`backend/app/agents/hotel_booking_agent.py`,
`backend/app/agents/orchestrator.py`).

The Python dictionaries built by the flight parsers are embedded as the
`Flight` structure; the `seen` dictionary of `_merge_and_deduplicate` is
embedded as an insertion-ordered association list (Python dicts preserve
insertion order, and `seen[key] = v` replaces in place); `sorted(...)` is
embedded as the stable `List.mergeSort`.
-/

set_option maxHeartbeats 1000000

namespace TravelPlanner

/-- Canonical flight record: the dictionary built by `_parse_google_flights`,
`_parse_booking_flights`, `_parse_amadeus_flights` and `_get_serper_flights`.
The Python key `class` is rendered `travel_class`.  `found_in_apis` and
`price_comparison` are absent (`none`) until `_merge_and_deduplicate` sets
them; `badge` is absent until `_add_badges` sets it.  Prices are rupee
integers as in the source; defaults let concrete examples stay short. -/
structure Flight where
  airline : String := ""
  airline_code : String := ""
  airline_logo : String := ""
  flight_number : String := ""
  departure_time : String := ""
  arrival_time : String := ""
  duration : String := ""
  duration_minutes : Int := 0
  price_per_person : Int := 0
  total_price : Int := 0
  passengers : Nat := 1
  travel_class : String := "Economy"
  stops : String := "Non-stop"
  num_stops : Nat := 0
  aircraft : String := ""
  deal : String := ""
  baggage : String := ""
  is_real_data : Bool := true
  data_source : String := ""
  booking_url : String := ""
  found_in_apis : Option (List String) := none
  price_comparison : Option (List (String × Int)) := none
  badge : Option String := none
  deriving Repr, DecidableEq

/-- Python's `str.lower()` (ASCII case folding, which covers airline
names), written structurally over the character list so that concrete
instances evaluate inside the kernel. -/
def lowerStr (s : String) : String := ⟨s.data.map Char.toLower⟩

/-- The deduplication key of `_merge_and_deduplicate`:
`(airline.lower(), departure_time, arrival_time, num_stops)`. -/
def flightKey (f : Flight) : String × String × String × Nat :=
  (lowerStr f.airline, f.departure_time, f.arrival_time, f.num_stops)

/-- The `seen` dictionary of `_merge_and_deduplicate`, as an
insertion-ordered association list (Python 3.7+ dict semantics). -/
abbrev Seen := List ((String × String × String × Nat) × Flight)

/-- Lookup `seen[key]` (first — and by the no-duplicate-keys invariant,
only — binding wins). -/
def lookupSeen (seen : Seen) (k : String × String × String × Nat) : Option Flight :=
  match seen with
  | [] => none
  | (k', f) :: rest => if k' = k then some f else lookupSeen rest k

/-- Assignment `seen[key] = f`: replace in place when the key is present, append at the
end otherwise — exactly Python dict assignment. -/
def updateSeen (seen : Seen) (k : String × String × String × Nat) (f : Flight) : Seen :=
  match seen with
  | [] => [(k, f)]
  | (k', g) :: rest => if k' = k then (k', f) :: rest else (k', g) :: updateSeen rest k f

/-- The `price_comparison` dict literal
`{old.data_source: old.price, new.data_source: new.price}`; equal keys
collapse to the later entry, as in a Python dict display. -/
def priceCmp (rep flight : Flight) : List (String × Int) :=
  if rep.data_source = flight.data_source then
    [(flight.data_source, flight.price_per_person)]
  else
    [(rep.data_source, rep.price_per_person), (flight.data_source, flight.price_per_person)]

/-- One iteration of the loop of `_merge_and_deduplicate`.  Python's
`list(set(existing + [src]))` is embedded as `List.dedup` (the set's
iteration order is unspecified; every claim below uses only membership). -/
def mergeStep (seen : Seen) (flight : Flight) : Seen :=
  match lookupSeen seen (flightKey flight) with
  | none =>
      updateSeen seen (flightKey flight)
        { flight with found_in_apis := some [flight.data_source] }
  | some rep =>
      if flight.price_per_person < rep.price_per_person then
        updateSeen seen (flightKey flight)
          { flight with
              found_in_apis :=
                some ((rep.found_in_apis.getD [rep.data_source] ++ [flight.data_source]).dedup),
              price_comparison := some (priceCmp rep flight) }
      else seen

/-- The merger `_merge_and_deduplicate`: fold the loop over the input, then
`list(seen.values())`. -/
def mergeAndDeduplicate (flights : List Flight) : List Flight :=
  (flights.foldl mergeStep []).map Prod.snd

/-! Example flights, following example scenario 1 of the spec: three offers
on the same route, two of them identical up to the deduplication key. -/

/-- Offer found by Google Flights: 06:00–08:00 non-stop at 5000. -/
def exGoogle : Flight :=
  { airline := "IndiGo", departure_time := "06:00", arrival_time := "08:00",
    duration_minutes := 120, price_per_person := 5000, num_stops := 0,
    data_source := "Google Flights" }

/-- The same flight found by Booking.com at 5200 (same dedup key, pricier). -/
def exBookingPricier : Flight :=
  { airline := "IndiGo", departure_time := "06:00", arrival_time := "08:00",
    duration_minutes := 120, price_per_person := 5200, num_stops := 0,
    data_source := "Booking.com" }

/-- The same flight found by Booking.com at 4800 (same dedup key, cheaper). -/
def exBookingCheaper : Flight :=
  { airline := "IndiGo", departure_time := "06:00", arrival_time := "08:00",
    duration_minutes := 120, price_per_person := 4800, num_stops := 0,
    data_source := "Booking.com" }

/-- A distinct offer: 14:00–17:00, one stop, 4500, found by Amadeus. -/
def exAmadeus : Flight :=
  { airline := "Air India", departure_time := "14:00", arrival_time := "17:00",
    duration_minutes := 180, price_per_person := 4500, num_stops := 1,
    data_source := "Amadeus" }

/-- One update step of the running minimum price held under one key. -/
def stepMin (o : Option Int) (p : Int) : Option Int :=
  some (match o with | none => p | some q => if p < q then p else q)

/-- Running minimum of a price list, starting from an optional prior value. -/
def minFold (o : Option Int) (ps : List Int) : Option Int :=
  ps.foldl stepMin o

/-! ### Association-list lemmas for the `seen` dictionary -/

@[simp] theorem lookupSeen_nil (k : String × String × String × Nat) :
    lookupSeen [] k = none := rfl

theorem lookupSeen_cons (k' : String × String × String × Nat) (g : Flight)
    (rest : Seen) (k : String × String × String × Nat) :
    lookupSeen ((k', g) :: rest) k = if k' = k then some g else lookupSeen rest k := rfl

@[simp] theorem updateSeen_nil (k : String × String × String × Nat) (f : Flight) :
    updateSeen [] k f = [(k, f)] := rfl

theorem updateSeen_cons (k' : String × String × String × Nat) (g : Flight)
    (rest : Seen) (k : String × String × String × Nat) (f : Flight) :
    updateSeen ((k', g) :: rest) k f
      = if k' = k then (k', f) :: rest else (k', g) :: updateSeen rest k f := rfl

theorem lookupSeen_updateSeen_self (s : Seen) (k : String × String × String × Nat)
    (f : Flight) : lookupSeen (updateSeen s k f) k = some f := by
  induction s with
  | nil => simp [lookupSeen_cons]
  | cons p rest ih =>
    obtain ⟨k', g⟩ := p
    by_cases h : k' = k
    · simp [updateSeen_cons, lookupSeen_cons, h]
    · simp [updateSeen_cons, lookupSeen_cons, h, ih]

theorem lookupSeen_updateSeen_ne (s : Seen) (k k' : String × String × String × Nat)
    (f : Flight) (h : k' ≠ k) :
    lookupSeen (updateSeen s k f) k' = lookupSeen s k' := by
  induction s with
  | nil =>
    simp only [updateSeen_nil, lookupSeen_cons, lookupSeen_nil]
    rw [if_neg (fun hh => h hh.symm)]
  | cons p rest ih =>
    obtain ⟨k'', g⟩ := p
    by_cases hk : k'' = k
    · subst hk
      rw [updateSeen_cons, if_pos rfl, lookupSeen_cons, lookupSeen_cons,
        if_neg (fun hh => h hh.symm), if_neg (fun hh => h hh.symm)]
    · rw [updateSeen_cons, if_neg hk, lookupSeen_cons, lookupSeen_cons, ih]

theorem mem_updateSeen (s : Seen) (k : String × String × String × Nat) (f : Flight)
    (p : (String × String × String × Nat) × Flight) (hp : p ∈ updateSeen s k f) :
    p ∈ s ∨ p = (k, f) := by
  induction s with
  | nil =>
    rw [updateSeen_nil] at hp
    right
    simpa using hp
  | cons q rest ih =>
    obtain ⟨k', g⟩ := q
    by_cases h : k' = k
    · subst h
      rw [updateSeen_cons, if_pos rfl] at hp
      rcases List.mem_cons.mp hp with h1 | h1
      · right; exact h1
      · left; exact List.mem_cons_of_mem _ h1
    · rw [updateSeen_cons, if_neg h] at hp
      rcases List.mem_cons.mp hp with h1 | h1
      · left; exact h1 ▸ List.mem_cons_self _ _
      · rcases ih h1 with h3 | h3
        · left; exact List.mem_cons_of_mem _ h3
        · right; exact h3

theorem lookupSeen_mem (s : Seen) (k : String × String × String × Nat) (f : Flight)
    (h : lookupSeen s k = some f) : (k, f) ∈ s := by
  induction s with
  | nil => simp at h
  | cons p rest ih =>
    obtain ⟨k', g⟩ := p
    by_cases hk : k' = k
    · subst hk
      rw [lookupSeen_cons, if_pos rfl] at h
      have : g = f := by injection h
      subst this
      exact List.mem_cons_self _ _
    · rw [lookupSeen_cons, if_neg hk] at h
      exact List.mem_cons_of_mem _ (ih h)

theorem lookupSeen_eq_none_iff (s : Seen) (k : String × String × String × Nat) :
    lookupSeen s k = none ↔ k ∉ s.map Prod.fst := by
  induction s with
  | nil => simp
  | cons p rest ih =>
    obtain ⟨k', g⟩ := p
    by_cases hk : k' = k
    · subst hk
      simp [lookupSeen_cons]
    · simp [lookupSeen_cons, hk, ih, Ne.symm hk]

theorem map_fst_updateSeen_of_mem (s : Seen) (k : String × String × String × Nat)
    (f : Flight) (h : k ∈ s.map Prod.fst) :
    (updateSeen s k f).map Prod.fst = s.map Prod.fst := by
  induction s with
  | nil => simp at h
  | cons p rest ih =>
    obtain ⟨k', g⟩ := p
    by_cases hk : k' = k
    · simp [updateSeen_cons, hk]
    · simp only [List.map_cons, List.mem_cons] at h
      rcases h with h | h
      · exact absurd h.symm hk
      · simp [updateSeen_cons, hk, ih h]

theorem map_fst_updateSeen_of_not_mem (s : Seen) (k : String × String × String × Nat)
    (f : Flight) (h : k ∉ s.map Prod.fst) :
    (updateSeen s k f).map Prod.fst = s.map Prod.fst ++ [k] := by
  induction s with
  | nil => simp
  | cons p rest ih =>
    obtain ⟨k', g⟩ := p
    simp only [List.map_cons, List.mem_cons] at h
    push_neg at h
    simp [updateSeen_cons, Ne.symm h.1, ih h.2]

theorem length_updateSeen_of_mem (s : Seen) (k : String × String × String × Nat)
    (f : Flight) (h : k ∈ s.map Prod.fst) :
    (updateSeen s k f).length = s.length := by
  have := map_fst_updateSeen_of_mem s k f h
  have h1 : ((updateSeen s k f).map Prod.fst).length = (s.map Prod.fst).length := by rw [this]
  simpa using h1

theorem length_updateSeen_of_not_mem (s : Seen) (k : String × String × String × Nat)
    (f : Flight) (h : k ∉ s.map Prod.fst) :
    (updateSeen s k f).length = s.length + 1 := by
  have := map_fst_updateSeen_of_not_mem s k f h
  have h1 : ((updateSeen s k f).map Prod.fst).length = (s.map Prod.fst).length + 1 := by
    rw [this]; simp
  simpa using h1

/-! ### Invariants of one merge step -/

/-- Every stored flight sits under its own deduplication key. -/
def keysConsistent (s : Seen) : Prop := ∀ p ∈ s, flightKey p.2 = p.1

/-- Every stored flight has its provenance list set, containing its own
data source. -/
def provOk (s : Seen) : Prop :=
  ∀ p ∈ s, ∃ srcs, p.2.found_in_apis = some srcs ∧ p.2.data_source ∈ srcs

theorem mergeStep_eq_new (s : Seen) (fl : Flight)
    (hl : lookupSeen s (flightKey fl) = none) :
    mergeStep s fl
      = updateSeen s (flightKey fl) { fl with found_in_apis := some [fl.data_source] } := by
  unfold mergeStep
  rw [hl]

theorem mergeStep_eq_cheaper (s : Seen) (fl rep : Flight)
    (hl : lookupSeen s (flightKey fl) = some rep)
    (hpr : fl.price_per_person < rep.price_per_person) :
    mergeStep s fl
      = updateSeen s (flightKey fl)
          { fl with
              found_in_apis :=
                some ((rep.found_in_apis.getD [rep.data_source] ++ [fl.data_source]).dedup),
              price_comparison := some (priceCmp rep fl) } := by
  unfold mergeStep
  rw [hl]
  exact if_pos hpr

theorem mergeStep_eq_keep (s : Seen) (fl rep : Flight)
    (hl : lookupSeen s (flightKey fl) = some rep)
    (hpr : ¬ fl.price_per_person < rep.price_per_person) :
    mergeStep s fl = s := by
  unfold mergeStep
  rw [hl]
  exact if_neg hpr

theorem lookupSeen_mergeStep_ne (s : Seen) (fl : Flight)
    (k : String × String × String × Nat) (h : k ≠ flightKey fl) :
    lookupSeen (mergeStep s fl) k = lookupSeen s k := by
  cases hl : lookupSeen s (flightKey fl) with
  | none =>
    rw [mergeStep_eq_new s fl hl]
    exact lookupSeen_updateSeen_ne s (flightKey fl) k _ h
  | some rep =>
    by_cases hpr : fl.price_per_person < rep.price_per_person
    · rw [mergeStep_eq_cheaper s fl rep hl hpr]
      exact lookupSeen_updateSeen_ne s (flightKey fl) k _ h
    · rw [mergeStep_eq_keep s fl rep hl hpr]

theorem lookupSeen_mergeStep_self (s : Seen) (fl : Flight) :
    (lookupSeen (mergeStep s fl) (flightKey fl)).map Flight.price_per_person
      = stepMin ((lookupSeen s (flightKey fl)).map Flight.price_per_person)
          fl.price_per_person := by
  cases hl : lookupSeen s (flightKey fl) with
  | none =>
    rw [mergeStep_eq_new s fl hl, lookupSeen_updateSeen_self]
    simp [stepMin]
  | some rep =>
    by_cases hpr : fl.price_per_person < rep.price_per_person
    · rw [mergeStep_eq_cheaper s fl rep hl hpr, lookupSeen_updateSeen_self]
      simp [stepMin, hpr]
    · rw [mergeStep_eq_keep s fl rep hl hpr, hl]
      simp [stepMin, hpr]

theorem keysConsistent_mergeStep (s : Seen) (fl : Flight)
    (h : keysConsistent s) : keysConsistent (mergeStep s fl) := by
  intro p hp
  cases hl : lookupSeen s (flightKey fl) with
  | none =>
    rw [mergeStep_eq_new s fl hl] at hp
    rcases mem_updateSeen _ _ _ _ hp with h1 | h1
    · exact h p h1
    · subst h1; rfl
  | some rep =>
    by_cases hpr : fl.price_per_person < rep.price_per_person
    · rw [mergeStep_eq_cheaper s fl rep hl hpr] at hp
      rcases mem_updateSeen _ _ _ _ hp with h1 | h1
      · exact h p h1
      · subst h1; rfl
    · rw [mergeStep_eq_keep s fl rep hl hpr] at hp
      exact h p hp

theorem provOk_mergeStep (s : Seen) (fl : Flight) (h : provOk s) :
    provOk (mergeStep s fl) := by
  intro p hp
  cases hl : lookupSeen s (flightKey fl) with
  | none =>
    rw [mergeStep_eq_new s fl hl] at hp
    rcases mem_updateSeen _ _ _ _ hp with h1 | h1
    · exact h p h1
    · subst h1
      exact ⟨[fl.data_source], rfl, by simp⟩
  | some rep =>
    by_cases hpr : fl.price_per_person < rep.price_per_person
    · rw [mergeStep_eq_cheaper s fl rep hl hpr] at hp
      rcases mem_updateSeen _ _ _ _ hp with h1 | h1
      · exact h p h1
      · subst h1
        refine ⟨_, rfl, ?_⟩
        rw [List.mem_dedup]
        simp
    · rw [mergeStep_eq_keep s fl rep hl hpr] at hp
      exact h p hp

theorem keysNodup_mergeStep (s : Seen) (fl : Flight)
    (h : (s.map Prod.fst).Nodup) : ((mergeStep s fl).map Prod.fst).Nodup := by
  cases hl : lookupSeen s (flightKey fl) with
  | none =>
    have hnm : flightKey fl ∉ s.map Prod.fst := (lookupSeen_eq_none_iff s _).mp hl
    rw [mergeStep_eq_new s fl hl, map_fst_updateSeen_of_not_mem s _ _ hnm]
    rw [List.nodup_append]
    refine ⟨h, List.nodup_singleton _, ?_⟩
    intro a ha hb
    simp only [List.mem_singleton] at hb
    subst hb
    exact hnm ha
  | some rep =>
    have hm : flightKey fl ∈ s.map Prod.fst := by
      by_contra hc
      rw [← lookupSeen_eq_none_iff] at hc
      rw [hc] at hl; cases hl
    by_cases hpr : fl.price_per_person < rep.price_per_person
    · rw [mergeStep_eq_cheaper s fl rep hl hpr, map_fst_updateSeen_of_mem s _ _ hm]
      exact h
    · rw [mergeStep_eq_keep s fl rep hl hpr]; exact h

theorem length_mergeStep_le (s : Seen) (fl : Flight) :
    (mergeStep s fl).length ≤ s.length + 1 := by
  cases hl : lookupSeen s (flightKey fl) with
  | none =>
    have hnm : flightKey fl ∉ s.map Prod.fst := (lookupSeen_eq_none_iff s _).mp hl
    rw [mergeStep_eq_new s fl hl, length_updateSeen_of_not_mem s _ _ hnm]
  | some rep =>
    have hm : flightKey fl ∈ s.map Prod.fst := by
      by_contra hc
      rw [← lookupSeen_eq_none_iff] at hc
      rw [hc] at hl; cases hl
    by_cases hpr : fl.price_per_person < rep.price_per_person
    · rw [mergeStep_eq_cheaper s fl rep hl hpr, length_updateSeen_of_mem s _ _ hm]
      omega
    · rw [mergeStep_eq_keep s fl rep hl hpr]; omega

/-! ### The fold over the whole input -/

theorem keysConsistent_foldl (l : List Flight) (s : Seen) (h : keysConsistent s) :
    keysConsistent (l.foldl mergeStep s) := by
  induction l generalizing s with
  | nil => simpa
  | cons f l ih => exact ih _ (keysConsistent_mergeStep s f h)

theorem provOk_foldl (l : List Flight) (s : Seen) (h : provOk s) :
    provOk (l.foldl mergeStep s) := by
  induction l generalizing s with
  | nil => simpa
  | cons f l ih => exact ih _ (provOk_mergeStep s f h)

theorem keysNodup_foldl (l : List Flight) (s : Seen) (h : (s.map Prod.fst).Nodup) :
    ((l.foldl mergeStep s).map Prod.fst).Nodup := by
  induction l generalizing s with
  | nil => simpa
  | cons f l ih => exact ih _ (keysNodup_mergeStep s f h)

theorem length_foldl_le (l : List Flight) (s : Seen) :
    (l.foldl mergeStep s).length ≤ s.length + l.length := by
  induction l generalizing s with
  | nil => simp
  | cons f l ih =>
    calc ((f :: l).foldl mergeStep s).length = (l.foldl mergeStep (mergeStep s f)).length := rfl
      _ ≤ (mergeStep s f).length + l.length := ih _
      _ ≤ s.length + 1 + l.length := by
          have := length_mergeStep_le s f; omega
      _ = s.length + (f :: l).length := by simp; omega

/-- The price the fold holds under key `k` is the running minimum of the
prices of the processed flights whose key is `k`. -/
theorem lookupSeen_foldl_price (l : List Flight) (s : Seen)
    (k : String × String × String × Nat) :
    (lookupSeen (l.foldl mergeStep s) k).map Flight.price_per_person
      = minFold ((lookupSeen s k).map Flight.price_per_person)
          ((l.filter (fun f => flightKey f = k)).map Flight.price_per_person) := by
  induction l generalizing s with
  | nil => simp [minFold]
  | cons f l ih =>
    by_cases hk : flightKey f = k
    · subst hk
      have hstep := lookupSeen_mergeStep_self s f
      calc (lookupSeen ((f :: l).foldl mergeStep s) (flightKey f)).map Flight.price_per_person
          = (lookupSeen (l.foldl mergeStep (mergeStep s f)) (flightKey f)).map
              Flight.price_per_person := rfl
        _ = minFold ((lookupSeen (mergeStep s f) (flightKey f)).map Flight.price_per_person)
              ((l.filter (fun g => flightKey g = flightKey f)).map Flight.price_per_person) :=
            ih (mergeStep s f)
        _ = minFold ((lookupSeen s (flightKey f)).map Flight.price_per_person)
              (((f :: l).filter (fun g => flightKey g = flightKey f)).map
                Flight.price_per_person) := by
            rw [hstep]
            simp [minFold]
    · have hstep := lookupSeen_mergeStep_ne s f k (fun h => hk h.symm)
      calc (lookupSeen ((f :: l).foldl mergeStep s) k).map Flight.price_per_person
          = (lookupSeen (l.foldl mergeStep (mergeStep s f)) k).map Flight.price_per_person := rfl
        _ = minFold ((lookupSeen (mergeStep s f) k).map Flight.price_per_person)
              ((l.filter (fun g => flightKey g = k)).map Flight.price_per_person) := ih _
        _ = minFold ((lookupSeen s k).map Flight.price_per_person)
              (((f :: l).filter (fun g => flightKey g = k)).map Flight.price_per_person) := by
            rw [hstep, List.filter_cons_of_neg (by simpa using hk)]

/-! ### Facts about the running minimum -/

theorem minFold_some (ps : List Int) (q : Int) :
    minFold (some q) ps = some (ps.foldl min q) := by
  induction ps generalizing q with
  | nil => rfl
  | cons p ps ih =>
    have h : stepMin (some q) p = some (min q p) := by
      simp only [stepMin, Option.some.injEq]
      rcases lt_or_ge p q with h | h
      · rw [if_pos h, min_eq_right (le_of_lt h)]
      · rw [if_neg (not_lt.mpr h), min_eq_left h]
    simp only [minFold, List.foldl_cons] at *
    rw [show stepMin (some q) p = some (min q p) from h, ih]

theorem foldl_min_le_init (ps : List Int) (q : Int) : ps.foldl min q ≤ q := by
  induction ps generalizing q with
  | nil => simp
  | cons p ps ih =>
    calc (p :: ps).foldl min q = ps.foldl min (min q p) := rfl
      _ ≤ min q p := ih _
      _ ≤ q := min_le_left _ _

theorem foldl_min_le_mem (ps : List Int) (q : Int) :
    ∀ p ∈ ps, ps.foldl min q ≤ p := by
  induction ps generalizing q with
  | nil => simp
  | cons r ps ih =>
    intro p hp
    rcases List.mem_cons.mp hp with h | h
    · subst h
      calc (p :: ps).foldl min q = ps.foldl min (min q p) := rfl
        _ ≤ min q p := foldl_min_le_init _ _
        _ ≤ p := min_le_right _ _
    · exact ih (min q r) p h

theorem foldl_min_mem (ps : List Int) (q : Int) :
    ps.foldl min q = q ∨ ps.foldl min q ∈ ps := by
  induction ps generalizing q with
  | nil => simp
  | cons p ps ih =>
    rcases ih (min q p) with h | h
    · rcases min_cases q p with ⟨h1, _⟩ | ⟨h1, _⟩
      · left
        calc (p :: ps).foldl min q = ps.foldl min (min q p) := rfl
          _ = min q p := h
          _ = q := h1
      · right
        simp only [List.mem_cons]
        left
        calc (p :: ps).foldl min q = ps.foldl min (min q p) := rfl
          _ = min q p := h
          _ = p := h1
    · right
      simp only [List.mem_cons]
      right
      exact h

theorem minFold_none_spec (ps : List Int) (hne : ps ≠ []) :
    ∃ m, minFold none ps = some m ∧ m ∈ ps ∧ ∀ p ∈ ps, m ≤ p := by
  cases ps with
  | nil => exact absurd rfl hne
  | cons p ps =>
    refine ⟨ps.foldl min p, ?_, ?_, ?_⟩
    · calc minFold none (p :: ps) = minFold (some p) ps := rfl
        _ = some (ps.foldl min p) := minFold_some ps p
    · rcases foldl_min_mem ps p with h | h
      · simp [h]
      · simp [h]
    · intro r hr
      rcases List.mem_cons.mp hr with h | h
      · subst h; exact foldl_min_le_init _ _
      · exact foldl_min_le_mem ps p r h

/-- The merger keeps, under every key that occurs in the input, a flight
whose price is the minimum price of that key's group. -/
theorem merge_lookup_min (l : List Flight) (k : String × String × String × Nat)
    (hne : l.filter (fun f => flightKey f = k) ≠ []) :
    ∃ f, lookupSeen (l.foldl mergeStep []) k = some f ∧
      f.price_per_person ∈ (l.filter (fun f => flightKey f = k)).map Flight.price_per_person ∧
      ∀ p ∈ (l.filter (fun f => flightKey f = k)).map Flight.price_per_person,
        f.price_per_person ≤ p := by
  have hlp := lookupSeen_foldl_price l [] k
  have hne' : (l.filter (fun f => flightKey f = k)).map Flight.price_per_person ≠ [] := by
    intro hc
    exact hne (List.map_eq_nil_iff.mp hc)
  obtain ⟨m, hm, hmem, hmin⟩ := minFold_none_spec _ hne'
  rw [show (lookupSeen ([] : Seen) k).map Flight.price_per_person = none from rfl, hm] at hlp
  cases hlf : lookupSeen (l.foldl mergeStep []) k with
  | none => rw [hlf] at hlp; simp at hlp
  | some f =>
    rw [hlf] at hlp
    have hfm : f.price_per_person = m := by simpa using hlp
    refine ⟨f, rfl, ?_, ?_⟩
    · rw [hfm]; exact hmem
    · intro p hp
      rw [hfm]
      exact hmin p hp

/-- C10: the merger's output contains no two offers with the same
deduplication key and is never longer than its input. -/
theorem merge_nodup_keys_length (l : List Flight) :
    (mergeAndDeduplicate l).Pairwise (fun f g => flightKey f ≠ flightKey g) ∧
    (mergeAndDeduplicate l).length ≤ l.length := by
  constructor
  · have hnodup := keysNodup_foldl l [] (by simp)
    have hcons := keysConsistent_foldl l [] (by intro p hp; simp at hp)
    have h1 : (l.foldl mergeStep []).Pairwise (fun p q => p.1 ≠ q.1) :=
      (List.pairwise_map).mp hnodup
    have h2 : (l.foldl mergeStep []).Pairwise
        (fun p q => flightKey p.2 ≠ flightKey q.2) := by
      refine h1.imp_of_mem ?_
      intro a b ha hb hab
      rw [hcons a ha, hcons b hb]
      exact hab
    rw [mergeAndDeduplicate, List.pairwise_map]
    exact h2
  · rw [mergeAndDeduplicate, List.length_map]
    have := length_foldl_le l []
    simpa using this

/-- C2: for every deduplication key occurring at least twice in the input,
the single offer kept under that key has the minimum `price_per_person` of
the key's group. -/
theorem merge_price_minimal (l : List Flight) (k : String × String × String × Nat)
    (h2 : 2 ≤ (l.filter (fun f => flightKey f = k)).length) :
    ∃ f ∈ mergeAndDeduplicate l, flightKey f = k ∧
      f.price_per_person ∈ (l.filter (fun f => flightKey f = k)).map Flight.price_per_person ∧
      ∀ g ∈ l.filter (fun f => flightKey f = k),
        f.price_per_person ≤ g.price_per_person := by
  have hne : l.filter (fun f => flightKey f = k) ≠ [] := by
    intro hc
    rw [hc] at h2
    simp at h2
  obtain ⟨f, hlf, hmem, hmin⟩ := merge_lookup_min l k hne
  have hpair : (k, f) ∈ l.foldl mergeStep [] := lookupSeen_mem _ _ _ hlf
  have hkey : flightKey f = k :=
    keysConsistent_foldl l [] (by intro p hp; simp at hp) _ hpair
  refine ⟨f, ?_, hkey, hmem, ?_⟩
  · rw [mergeAndDeduplicate]
    exact List.mem_map_of_mem Prod.snd hpair
  · intro g hg
    exact hmin g.price_per_person (List.mem_map_of_mem _ hg)

/-- Witness for `merge_price_minimal` at the spec's example scenario 1:
the Google and Booking.com copies of the same flight share a key. -/
theorem merge_price_minimal_witness :
    2 ≤ (([exGoogle, exBookingPricier].filter
        (fun f => flightKey f = flightKey exGoogle)).length) ∧
    ∃ f ∈ mergeAndDeduplicate [exGoogle, exBookingPricier],
      flightKey f = flightKey exGoogle ∧
      f.price_per_person ∈ (([exGoogle, exBookingPricier].filter
        (fun f => flightKey f = flightKey exGoogle)).map Flight.price_per_person) ∧
      ∀ g ∈ [exGoogle, exBookingPricier].filter
          (fun f => flightKey f = flightKey exGoogle),
        f.price_per_person ≤ g.price_per_person :=
  ⟨by decide, merge_price_minimal [exGoogle, exBookingPricier] (flightKey exGoogle) (by decide)⟩

/-- C1 counterexample: a pricier duplicate's provider is dropped from the
representative's provenance list.  `exBookingPricier` is a member of the
group of `exGoogle` (same key), yet the lone representative's
`found_in_apis` omits `Booking.com`. -/
theorem merge_provenance_counterexample :
    flightKey exBookingPricier = flightKey exGoogle ∧
    (mergeAndDeduplicate [exGoogle, exBookingPricier]).map Flight.found_in_apis
      = [some ["Google Flights"]] ∧
    exBookingPricier.data_source = "Booking.com" ∧
    "Booking.com" ∉ (["Google Flights"] : List String) := by decide

/-- C1 amended: every offer past the merger has `found_in_apis` set and it
contains the winning member's own data source; a pricier group member's
source may be dropped (as a pricier duplicate shows). -/
theorem merge_provenance_winner (l : List Flight) (f : Flight)
    (hf : f ∈ mergeAndDeduplicate l) :
    ∃ srcs, f.found_in_apis = some srcs ∧ f.data_source ∈ srcs := by
  rw [mergeAndDeduplicate] at hf
  obtain ⟨p, hp, rfl⟩ := List.mem_map.mp hf
  exact provOk_foldl l [] (by intro q hq; simp at hq) p hp

/-- The representative the merger keeps for the example group in which the
Booking.com copy is cheaper. -/
def exMergedRep : Flight :=
  { exBookingCheaper with
      found_in_apis := some ["Google Flights", "Booking.com"],
      price_comparison := some [("Google Flights", 5000), ("Booking.com", 4800)] }

/-- Witness for `merge_provenance_winner`. -/
theorem merge_provenance_winner_witness :
    exMergedRep ∈ mergeAndDeduplicate [exGoogle, exBookingCheaper] ∧
    ∃ srcs, exMergedRep.found_in_apis = some srcs ∧ exMergedRep.data_source ∈ srcs :=
  ⟨by decide, merge_provenance_winner [exGoogle, exBookingCheaper] exMergedRep (by decide)⟩

/-- C7 counterexample: the two orders of the same two-offer set merge to
different representatives with different provenance lists. -/
theorem merge_order_counterexample :
    ([exGoogle, exBookingCheaper] : List Flight).Perm [exBookingCheaper, exGoogle] ∧
    mergeAndDeduplicate [exGoogle, exBookingCheaper]
      ≠ mergeAndDeduplicate [exBookingCheaper, exGoogle] :=
  ⟨List.Perm.swap exBookingCheaper exGoogle [], by decide⟩

/-- A fold of merge steps over flights that are all at least as expensive
as what is already stored under their keys changes nothing. -/
theorem foldl_mergeStep_noop (l : List Flight) (s : Seen)
    (h : ∀ f ∈ l, ∃ rep, lookupSeen s (flightKey f) = some rep ∧
          rep.price_per_person ≤ f.price_per_person) :
    l.foldl mergeStep s = s := by
  induction l with
  | nil => rfl
  | cons f l ih =>
    obtain ⟨rep, hrep, hle⟩ := h f (List.mem_cons_self _ _)
    have hstep : mergeStep s f = s := mergeStep_eq_keep s f rep hrep (not_lt.mpr hle)
    calc (f :: l).foldl mergeStep s = l.foldl mergeStep (mergeStep s f) := rfl
      _ = l.foldl mergeStep s := by rw [hstep]
      _ = s := ih (fun g hg => h g (List.mem_cons_of_mem _ hg))

/-- C7 amended: merging a list concatenated with itself yields exactly the
merge of the list itself (the second pass never finds a strictly cheaper
copy), but the result is not invariant under permutation
(two orders of the same pair differ). -/
theorem merge_self_append (l : List Flight) :
    mergeAndDeduplicate (l ++ l) = mergeAndDeduplicate l := by
  rw [mergeAndDeduplicate, mergeAndDeduplicate, List.foldl_append]
  congr 1
  apply foldl_mergeStep_noop
  intro f hf
  have hne : l.filter (fun g => flightKey g = flightKey f) ≠ [] := by
    have hfmem : f ∈ l.filter (fun g => flightKey g = flightKey f) :=
      List.mem_filter.mpr ⟨hf, by simp⟩
    intro hc
    rw [hc] at hfmem
    simp at hfmem
  obtain ⟨rep, hlf, _, hmin⟩ := merge_lookup_min l (flightKey f) hne
  refine ⟨rep, hlf, ?_⟩
  exact hmin f.price_per_person
    (List.mem_map_of_mem _ (List.mem_filter.mpr ⟨hf, by simp⟩))

/-! ### Ranking and badges (`_add_badges`) -/

/-- The sort `sorted(flights, key=lambda x: x["price_per_person"])`: Python's stable
ascending sort, embedded as `List.mergeSort`. -/
def sortByPrice (l : List Flight) : List Flight :=
  l.mergeSort (fun a b => decide (a.price_per_person ≤ b.price_per_person))

/-- The sort `sorted(flights, key=lambda x: x.get("duration_minutes", 999))`; every
flight built by a parser carries `duration_minutes`, so the default never
fires. -/
def sortByDuration (l : List Flight) : List Flight :=
  l.mergeSort (fun a b => decide (a.duration_minutes ≤ b.duration_minutes))

/-- The value score computed in `_add_badges`:
`price/1000 + duration/60 + 2*stops` (lower is better).  The source caches
it in the record under `value_score`; it is a pure function of the flight,
computed here where it is used. -/
def valueScore (f : Flight) : ℚ :=
  (f.price_per_person : ℚ) / 1000 + (f.duration_minutes : ℚ) / 60 + (f.num_stops : ℚ) * 2

/-- The sort `sorted(flights, key=lambda x: x.get("value_score", 999))`. -/
def sortByValue (l : List Flight) : List Flight :=
  l.mergeSort (fun a b => decide (valueScore a ≤ valueScore b))

/-- The badge `_add_badges` gives one flight, with `bp`, `bd`, `bv` the
heads of the price, duration and value sorts.  The Python compares dicts
(by identity, which on the duplicate-free lists the merger produces
coincides with value equality); this is embedded as value equality. -/
def badgeOf (bp bd bv f : Flight) : String :=
  if f = bp then "💰 Cheapest"
  else if f = bd ∧ bd ≠ bp then "⚡ Fastest"
  else if f = bv ∧ bv ≠ bp ∧ bv ≠ bd then "⭐ Best Value"
  else "✈️ Good Option"

/-- The badge pass `_add_badges`: on an empty list do nothing, otherwise give every flight
its badge. -/
def addBadges (flights : List Flight) : List Flight :=
  match (sortByPrice flights).head?, (sortByDuration flights).head?,
      (sortByValue flights).head? with
  | some bp, some bd, some bv =>
      flights.map (fun f => { f with badge := some (badgeOf bp bd bv f) })
  | _, _, _ => flights

/-- The head of a stable sort by a linearly ordered key is a member that
minimises the key. -/
theorem head_mergeSort_key_min {α β : Type} [LinearOrder β] (key : α → β)
    (l : List α) (m : α)
    (h : (l.mergeSort (fun a b => decide (key a ≤ key b))).head? = some m) :
    m ∈ l ∧ ∀ x ∈ l, key m ≤ key x := by
  have hperm := List.mergeSort_perm l (fun a b => decide (key a ≤ key b))
  have hsorted := @List.sorted_mergeSort _ (fun a b => decide (key a ≤ key b))
    (fun a b c hab hbc => by
      simp only [decide_eq_true_eq] at *
      exact le_trans hab hbc)
    (fun a b => by
      simp only [Bool.or_eq_true, decide_eq_true_eq]
      exact le_total (key a) (key b))
    l
  cases hms : l.mergeSort (fun a b => decide (key a ≤ key b)) with
  | nil => rw [hms] at h; cases h
  | cons a t =>
    rw [hms] at h
    have ham : m = a := by
      simpa using h.symm
    subst ham
    rw [hms] at hperm hsorted
    constructor
    · exact hperm.subset (List.mem_cons_self _ _)
    · intro x hx
      have hx' : x ∈ m :: t := hperm.symm.subset hx
      rcases List.mem_cons.mp hx' with h1 | h1
      · rw [h1]
      · have := (List.pairwise_cons.mp hsorted).1 x h1
        simpa using this

/-- A list permutation-equal to a non-empty list has a head. -/
theorem head_some_of_perm_ne_nil {α : Type} (l s : List α) (hperm : s.Perm l)
    (hne : l ≠ []) : ∃ a, s.head? = some a := by
  cases s with
  | nil => exact absurd hperm.nil_eq.symm hne
  | cons a t => exact ⟨a, rfl⟩

/-- C3: on a non-empty list, `_add_badges` badges the cheapest offer (head
of the price sort) "Cheapest"; the fastest offer "Fastest" when distinct
from the cheapest; the best-value offer "Best Value" when distinct from
both; every other offer "Good Option"; and when the three heads are
pairwise distinct, the three category badges land on three different
offers (no offer holds two, since each offer holds exactly one badge). -/
theorem badges_spec (flights : List Flight) (hne : flights ≠ []) :
    ∃ bp bd bv,
      (sortByPrice flights).head? = some bp ∧
      (sortByDuration flights).head? = some bd ∧
      (sortByValue flights).head? = some bv ∧
      bp ∈ flights ∧ (∀ f ∈ flights, bp.price_per_person ≤ f.price_per_person) ∧
      bd ∈ flights ∧ (∀ f ∈ flights, bd.duration_minutes ≤ f.duration_minutes) ∧
      bv ∈ flights ∧ (∀ f ∈ flights, valueScore bv ≤ valueScore f) ∧
      { bp with badge := some "💰 Cheapest" } ∈ addBadges flights ∧
      (bd ≠ bp → { bd with badge := some "⚡ Fastest" } ∈ addBadges flights) ∧
      (bv ≠ bp → bv ≠ bd → { bv with badge := some "⭐ Best Value" } ∈ addBadges flights) ∧
      (∀ f ∈ flights, f ≠ bp → f ≠ bd → f ≠ bv →
        { f with badge := some "✈️ Good Option" } ∈ addBadges flights) ∧
      (bp ≠ bd → bp ≠ bv → bd ≠ bv →
        badgeOf bp bd bv bp = "💰 Cheapest" ∧ badgeOf bp bd bv bd = "⚡ Fastest" ∧
        badgeOf bp bd bv bv = "⭐ Best Value") := by
  obtain ⟨bp, hbp⟩ := head_some_of_perm_ne_nil flights (sortByPrice flights)
    (List.mergeSort_perm flights _) hne
  obtain ⟨bd, hbd⟩ := head_some_of_perm_ne_nil flights (sortByDuration flights)
    (List.mergeSort_perm flights _) hne
  obtain ⟨bv, hbv⟩ := head_some_of_perm_ne_nil flights (sortByValue flights)
    (List.mergeSort_perm flights _) hne
  obtain ⟨hbpmem, hbpmin⟩ := head_mergeSort_key_min Flight.price_per_person flights bp hbp
  obtain ⟨hbdmem, hbdmin⟩ := head_mergeSort_key_min Flight.duration_minutes flights bd hbd
  obtain ⟨hbvmem, hbvmin⟩ := head_mergeSort_key_min valueScore flights bv hbv
  have haddb : addBadges flights
      = flights.map (fun f => { f with badge := some (badgeOf bp bd bv f) }) := by
    unfold addBadges
    rw [show (sortByPrice flights).head? = some bp from hbp,
      show (sortByDuration flights).head? = some bd from hbd,
      show (sortByValue flights).head? = some bv from hbv]
  refine ⟨bp, bd, bv, hbp, hbd, hbv, hbpmem, hbpmin, hbdmem, hbdmin, hbvmem, hbvmin,
    ?_, ?_, ?_, ?_, ?_⟩
  · rw [haddb]
    have : badgeOf bp bd bv bp = "💰 Cheapest" := by simp [badgeOf]
    have hmem := List.mem_map_of_mem
      (fun f => { f with badge := some (badgeOf bp bd bv f) }) hbpmem
    simpa [this] using hmem
  · intro hd
    rw [haddb]
    have : badgeOf bp bd bv bd = "⚡ Fastest" := by simp [badgeOf, hd]
    have hmem := List.mem_map_of_mem
      (fun f => { f with badge := some (badgeOf bp bd bv f) }) hbdmem
    simpa [this] using hmem
  · intro hv1 hv2
    rw [haddb]
    have : badgeOf bp bd bv bv = "⭐ Best Value" := by simp [badgeOf, hv1, hv2]
    have hmem := List.mem_map_of_mem
      (fun f => { f with badge := some (badgeOf bp bd bv f) }) hbvmem
    simpa [this] using hmem
  · intro f hf h1 h2 h3
    rw [haddb]
    have : badgeOf bp bd bv f = "✈️ Good Option" := by simp [badgeOf, h1, h2, h3]
    have hmem := List.mem_map_of_mem
      (fun f => { f with badge := some (badgeOf bp bd bv f) }) hf
    simpa [this] using hmem
  · intro h1 h2 h3
    refine ⟨by simp [badgeOf], by simp [badgeOf, Ne.symm h1], ?_⟩
    simp [badgeOf, Ne.symm h2, Ne.symm h3]

/-- Witness for `badges_spec` on a concrete three-offer list. -/
theorem badges_spec_witness :
    ([exGoogle, exBookingPricier, exAmadeus] : List Flight) ≠ [] ∧
    ∃ bp bd bv,
      (sortByPrice [exGoogle, exBookingPricier, exAmadeus]).head? = some bp ∧
      (sortByDuration [exGoogle, exBookingPricier, exAmadeus]).head? = some bd ∧
      (sortByValue [exGoogle, exBookingPricier, exAmadeus]).head? = some bv ∧
      bp ∈ [exGoogle, exBookingPricier, exAmadeus] ∧
      (∀ f ∈ [exGoogle, exBookingPricier, exAmadeus],
        bp.price_per_person ≤ f.price_per_person) ∧
      bd ∈ [exGoogle, exBookingPricier, exAmadeus] ∧
      (∀ f ∈ [exGoogle, exBookingPricier, exAmadeus],
        bd.duration_minutes ≤ f.duration_minutes) ∧
      bv ∈ [exGoogle, exBookingPricier, exAmadeus] ∧
      (∀ f ∈ [exGoogle, exBookingPricier, exAmadeus], valueScore bv ≤ valueScore f) ∧
      { bp with badge := some "💰 Cheapest" }
        ∈ addBadges [exGoogle, exBookingPricier, exAmadeus] ∧
      (bd ≠ bp → { bd with badge := some "⚡ Fastest" }
        ∈ addBadges [exGoogle, exBookingPricier, exAmadeus]) ∧
      (bv ≠ bp → bv ≠ bd → { bv with badge := some "⭐ Best Value" }
        ∈ addBadges [exGoogle, exBookingPricier, exAmadeus]) ∧
      (∀ f ∈ [exGoogle, exBookingPricier, exAmadeus], f ≠ bp → f ≠ bd → f ≠ bv →
        { f with badge := some "✈️ Good Option" }
          ∈ addBadges [exGoogle, exBookingPricier, exAmadeus]) ∧
      (bp ≠ bd → bp ≠ bv → bd ≠ bv →
        badgeOf bp bd bv bp = "💰 Cheapest" ∧ badgeOf bp bd bv bd = "⚡ Fastest" ∧
        badgeOf bp bd bv bv = "⭐ Best Value") :=
  ⟨by decide, badges_spec [exGoogle, exBookingPricier, exAmadeus] (by decide)⟩

/-! ### The flight pipeline of `_search_flights_parallel` -/

/-- The result-collection loop: extend `all_flights` with each adapter's
list exactly when that adapter returned at least one flight. -/
def collectFlights (results : List (List Flight)) : List Flight :=
  results.foldl (fun acc fs => if fs.length > 0 then acc ++ fs else acc) []

/-- What `_search_flights_parallel` hands back: the flight list plus
whether the generative fallback (`_get_serper_flights`) was invoked. -/
structure SearchOutcome where
  flights : List Flight
  usedFallback : Bool
  deriving Repr, DecidableEq

/-- The post-`gather` portion of `_search_flights_parallel`: collect, merge,
sort by price, badge, and fall back to the AI estimate exactly when the
merged list is empty.  `aiFallback` stands for whatever
`_get_serper_flights` would return at its suspension point. -/
def searchFlightsPipeline (adapterResults : List (List Flight))
    (aiFallback : List Flight) : SearchOutcome :=
  let badged := addBadges (sortByPrice (mergeAndDeduplicate (collectFlights adapterResults)))
  if badged.isEmpty then
    { flights := aiFallback.take 5, usedFallback := true }
  else
    { flights := badged.take 5, usedFallback := false }

theorem length_addBadges (l : List Flight) : (addBadges l).length = l.length := by
  unfold addBadges
  cases (sortByPrice l).head? <;> cases (sortByDuration l).head? <;>
    cases (sortByValue l).head? <;> simp

theorem length_sortByPrice (l : List Flight) : (sortByPrice l).length = l.length :=
  (List.mergeSort_perm l _).length_eq

/-- C4: the generative-estimate fallback fires iff merging the collected
primary offers yields nothing; when the primary tier yields at least one
offer, no fallback happens and the result is exactly the top five of the
sorted, badged merged list. -/
theorem fallback_iff_empty (rs : List (List Flight)) (fb : List Flight) :
    ((searchFlightsPipeline rs fb).usedFallback = true ↔
      mergeAndDeduplicate (collectFlights rs) = []) ∧
    (mergeAndDeduplicate (collectFlights rs) ≠ [] →
      (searchFlightsPipeline rs fb).usedFallback = false ∧
      (searchFlightsPipeline rs fb).flights
        = (addBadges (sortByPrice (mergeAndDeduplicate (collectFlights rs)))).take 5) := by
  have hiff : (addBadges (sortByPrice (mergeAndDeduplicate (collectFlights rs)))).isEmpty = true
      ↔ mergeAndDeduplicate (collectFlights rs) = [] := by
    rw [List.isEmpty_iff_length_eq_zero, length_addBadges, length_sortByPrice,
      List.length_eq_zero]
  by_cases he : mergeAndDeduplicate (collectFlights rs) = []
  · have hb : (addBadges (sortByPrice (mergeAndDeduplicate (collectFlights rs)))).isEmpty
        = true := hiff.mpr he
    unfold searchFlightsPipeline
    rw [if_pos hb]
    exact ⟨by simp [he], fun hc => absurd he hc⟩
  · have hb : (addBadges (sortByPrice (mergeAndDeduplicate (collectFlights rs)))).isEmpty
        = false := by
      rcases Bool.eq_false_or_eq_true
        ((addBadges (sortByPrice (mergeAndDeduplicate (collectFlights rs)))).isEmpty) with h | h
      · exact absurd (hiff.mp h) he
      · exact h
    unfold searchFlightsPipeline
    rw [if_neg (by simp [hb])]
    refine ⟨?_, fun _ => ⟨rfl, rfl⟩⟩
    constructor
    · intro hc
      cases hc
    · intro hc
      exact absurd hc he

/-- Witness for `fallback_iff_empty`: with one real offer collected, no
fallback happens. -/
theorem fallback_iff_empty_witness :
    mergeAndDeduplicate (collectFlights [[exGoogle], [exBookingPricier]]) ≠ [] ∧
    (searchFlightsPipeline [[exGoogle], [exBookingPricier]] []).usedFallback = false ∧
    (searchFlightsPipeline [[exGoogle], [exBookingPricier]] []).flights
      = (addBadges (sortByPrice (mergeAndDeduplicate
          (collectFlights [[exGoogle], [exBookingPricier]])))).take 5 :=
  ⟨by decide, (fallback_iff_empty [[exGoogle], [exBookingPricier]] []).2 (by decide)⟩

/-! ### Provider parsing (`_parse_google_flights`) and the generative
fallback (`_get_serper_flights`) -/

/-- Python `str.split(sep)` with a one-character separator, written
structurally over the character list. -/
def splitOnChar (c : Char) : List Char → List Char → List (List Char)
  | [], acc => [acc.reverse]
  | c' :: rest, acc =>
      if c' = c then acc.reverse :: splitOnChar c rest []
      else splitOnChar c rest (c' :: acc)

/-- The helper `_format_time`: trim a timestamp to `HH:MM` — `split("T")[1][:5]` when a
`T` is present, else the first five characters.  Written over character
lists so that concrete inputs evaluate in the kernel. -/
def formatTime (time_str : String) : String :=
  if time_str = "" then ""
  else if 'T' ∈ time_str.data then
    ⟨((splitOnChar 'T' time_str.data []).getD 1 []).take 5⟩
  else ⟨time_str.data.take 5⟩

/-- The helper `_get_deal_tag`.  Python's falsy `if not budget` covers both `None` and
`0`; the float factor `0.7` is embedded exactly in ℚ (binary-float rounding
of `0.7 * budget` can differ by one ulp at the boundary only). -/
def getDealTag (price : Int) (budget : Option Int) : String :=
  match budget with
  | none => ""
  | some b =>
      if b = 0 then ""
      else if (price : ℚ) ≤ (b : ℚ) * 0.7 then "🔥 Great Deal"
      else if price ≤ b then "✅ Within Budget"
      else ""

/-- The `stops` display string built by the parsers. -/
def stopsLabel (stops : Nat) : String :=
  if stops = 0 then "Non-stop"
  else toString stops ++ " stop" ++ (if stops > 1 then "s" else "")

/-- One raw segment of a Google Flights record (only the fields the parser
reads); absent JSON keys are `none`. -/
structure GoogleRawSegment where
  flightNumber : Option String := none
  aircraftName : Option String := none
  deriving Repr, DecidableEq

/-- One raw flight of the Google Flights response. -/
structure GoogleRawFlight where
  price : Option Int := none
  durationMinutes : Option Int := none
  stops : Option Nat := none
  segments : List GoogleRawSegment := []
  airlineName : Option String := none
  airlineCode : Option String := none
  departureTime : Option String := none
  arrivalTime : Option String := none
  deriving Repr, DecidableEq

/-- The `data` object of the Google Flights response. -/
structure GoogleRawData where
  topFlights : List GoogleRawFlight := []
  otherFlights : List GoogleRawFlight := []
  deriving Repr, DecidableEq

/-- The body of `_parse_google_flights` applied to one raw flight; the defaults mirror
the `.get(key, default)` calls, and `segments[0] if segments else ` an
empty record.  Python's `//` and `%` are `Int.fdiv` and `Int.fmod`. -/
def parseGoogleFlight (passengers : Nat) (budget : Option Int)
    (flight : GoogleRawFlight) : Flight :=
  let price := flight.price.getD 0
  let duration_mins := flight.durationMinutes.getD 0
  let nstops := flight.stops.getD 0
  let first_seg := flight.segments.headD {}
  { airline := flight.airlineName.getD "Unknown"
    airline_code := flight.airlineCode.getD "XX"
    airline_logo := "https://www.gstatic.com/flights/airline_logos/70px/"
        ++ flight.airlineCode.getD "XX" ++ ".png"
    flight_number := flight.airlineCode.getD "" ++ first_seg.flightNumber.getD ""
    departure_time := formatTime (flight.departureTime.getD "")
    arrival_time := formatTime (flight.arrivalTime.getD "")
    duration := toString (Int.fdiv duration_mins 60) ++ "h "
        ++ toString (Int.fmod duration_mins 60) ++ "m"
    duration_minutes := duration_mins
    price_per_person := price
    total_price := price * passengers
    passengers := passengers
    travel_class := "Economy"
    stops := stopsLabel nstops
    num_stops := nstops
    aircraft := first_seg.aircraftName.getD ""
    deal := getDealTag price budget
    baggage := "15kg + 7kg cabin"
    is_real_data := true
    data_source := "Google Flights"
    booking_url := "https://www.google.com/travel/flights" }

/-- The parser `_parse_google_flights`: `topFlights + otherFlights` capped at 20 raw
candidates.  (The per-item `try/except: continue` of the source guards
field accesses that the total embedding cannot fail at.) -/
def parseGoogleFlights (data : GoogleRawData) (passengers : Nat)
    (budget : Option Int) : List Flight :=
  ((data.topFlights ++ data.otherFlights).take 20).map (parseGoogleFlight passengers budget)

/-- One raw record of the generative fallback's JSON array (fields the code
reads; absent keys are `none`). -/
structure SerperRawFlight where
  airline : Option String := none
  airline_code : Option String := none
  flight_number : Option String := none
  departure_time : Option String := none
  arrival_time : Option String := none
  duration : Option String := none
  price_per_person : Option Int := none
  stops : Option String := none
  deriving Repr, DecidableEq

/-- The record construction of `_get_serper_flights` after the JSON parse,
capped at three flights; every record is an estimate. -/
def getSerperFlights (flights_data : List SerperRawFlight) (passengers : Nat) :
    List Flight :=
  (flights_data.take 3).map (fun f =>
    { airline := f.airline.getD "Unknown"
      airline_code := f.airline_code.getD "XX"
      airline_logo := ""
      flight_number := f.flight_number.getD ""
      departure_time := f.departure_time.getD ""
      arrival_time := f.arrival_time.getD ""
      duration := f.duration.getD ""
      duration_minutes := 120
      price_per_person := f.price_per_person.getD 5000
      total_price := f.price_per_person.getD 5000 * passengers
      passengers := passengers
      travel_class := "Economy"
      stops := f.stops.getD "Non-stop"
      num_stops := 0
      aircraft := ""
      deal := ""
      baggage := "15kg included"
      is_real_data := false
      data_source := "AI Estimate"
      booking_url := "" })

/-- C5: every record parsed from a real Google Flights response carries
`is_real_data = true`, and every record from the generative fallback
carries `is_real_data = false`. -/
theorem real_data_flag (d : GoogleRawData) (raw : List SerperRawFlight)
    (p q : Nat) (b : Option Int) :
    (∀ f ∈ parseGoogleFlights d p b, f.is_real_data = true) ∧
    (∀ f ∈ getSerperFlights raw q, f.is_real_data = false) := by
  constructor
  · intro f hf
    rw [parseGoogleFlights] at hf
    obtain ⟨r, _, rfl⟩ := List.mem_map.mp hf
    rfl
  · intro f hf
    rw [getSerperFlights] at hf
    obtain ⟨r, _, rfl⟩ := List.mem_map.mp hf
    rfl

/-- A concrete raw Google Flights record. -/
def exGoogleRaw : GoogleRawFlight :=
  { price := some 5000, durationMinutes := some 120, stops := some 0,
    segments := [{ flightNumber := some "123", aircraftName := some "A320" }],
    airlineName := some "IndiGo", airlineCode := some "6E",
    departureTime := some "2025-01-01T06:00:00", arrivalTime := some "2025-01-01T08:00:00" }

/-- A concrete raw record of the generative fallback. -/
def exSerperRaw : SerperRawFlight :=
  { airline := some "IndiGo", price_per_person := some 4500 }

/-- Witness for `real_data_flag` at concrete raw records. -/
theorem real_data_flag_witness :
    (parseGoogleFlight 1 none exGoogleRaw
        ∈ parseGoogleFlights { topFlights := [exGoogleRaw], otherFlights := [] } 1 none ∧
      (parseGoogleFlight 1 none exGoogleRaw).is_real_data = true) ∧
    ((getSerperFlights [exSerperRaw] 1).headD {} ∈ getSerperFlights [exSerperRaw] 1 ∧
      ((getSerperFlights [exSerperRaw] 1).headD {}).is_real_data = false) :=
  ⟨⟨by decide,
    (real_data_flag { topFlights := [exGoogleRaw], otherFlights := [] } [exSerperRaw]
      1 1 none).1 _ (by decide)⟩,
   ⟨by decide,
    (real_data_flag { topFlights := [exGoogleRaw], otherFlights := [] } [exSerperRaw]
      1 1 none).2 _ (by decide)⟩⟩

/-! ### Fan-out isolation (`_search_*_safe` wrappers and the gather loop) -/

/-- The safe-wrapper pattern of `_search_google_flights_safe` and friends:
an adapter outcome is either its parsed offer list or a raised exception,
and the wrapper turns the latter into an empty list. -/
def safeAdapterCall (outcome : Except String (List Flight)) : List Flight :=
  match outcome with
  | .ok flights => flights
  | .error _ => []

theorem collectFlights_eq_flatten (rs : List (List Flight)) :
    collectFlights rs = rs.flatten := by
  suffices h : ∀ acc, rs.foldl (fun acc fs => if fs.length > 0 then acc ++ fs else acc) acc
      = acc ++ rs.flatten by
    simpa using h []
  induction rs with
  | nil => intro acc; simp
  | cons fs rs ih =>
    intro acc
    by_cases hfs : fs.length > 0
    · simp only [List.foldl_cons, if_pos hfs, ih, List.flatten_cons, List.append_assoc]
    · have hnil : fs = [] := by
        rcases fs with _ | ⟨a, t⟩
        · rfl
        · simp at hfs
      subst hnil
      simp [ih]

/-- C6: a failing adapter resolves to an empty offer list (the safe wrapper
never re-raises), and the fan-out's collected output is the concatenation
of exactly the successful adapters' offer lists. -/
theorem fanout_isolation :
    (∀ e : String, safeAdapterCall (.error e) = []) ∧
    (∀ outcomes : List (Except String (List Flight)),
      collectFlights (outcomes.map safeAdapterCall)
        = (outcomes.filterMap Except.toOption).flatten) := by
  refine ⟨fun e => rfl, ?_⟩
  intro outcomes
  rw [collectFlights_eq_flatten]
  induction outcomes with
  | nil => rfl
  | cons o os ih =>
    cases o with
    | ok fs => simp [safeAdapterCall, Except.toOption, ih]
    | error e => simp [safeAdapterCall, Except.toOption, ih]

/-! ### Hotels (`hotel_booking_agent.py`) -/

/-- The AI review analysis attached by `_add_review_analysis` (the fields
the ranker reads). -/
structure ReviewAnalysis where
  sentiment_score : Option ℚ := none
  value_score : Option ℚ := none
  deriving Repr, DecidableEq

/-- Canonical hotel record: the candidate dictionary built by
`_search_booking_com_v2`.  Purely presentational fields no claim touches
(image URLs, deal strings, check-in/out times, review word, booking URL,
coordinates) are omitted.  `composite_score`, `nights`, `rooms` and
`badge` are absent until `_rank_hotels` sets them. -/
structure Hotel where
  id : String := ""
  name : String := ""
  star_rating : Nat := 3
  location : String := ""
  price_total : Int := 0
  price_with_taxes : Int := 0
  price_per_night : Int := 0
  review_score : ℚ := 0
  total_reviews : Nat := 0
  is_preferred : Bool := false
  is_real_data : Bool := true
  data_source : String := ""
  review_analysis : Option ReviewAnalysis := none
  composite_score : Option ℚ := none
  nights : Option Nat := none
  rooms : Option Nat := none
  badge : Option String := none
  deriving Repr, DecidableEq

/-- One raw hotel of the Booking.com v2 (`booking-com18`) search response
(the fields the parser reads); `grossPriceValue` stands for
`priceBreakdown.grossPrice.value`. -/
structure BookingV2RawHotel where
  id : Option String := none
  name : Option String := none
  grossPriceValue : Option Int := none
  reviewScore : Option ℚ := none
  reviewCount : Option Nat := none
  propertyClass : Option Nat := none
  accuratePropertyClass : Option Nat := none
  isPreferredPlus : Option Bool := none
  deriving Repr, DecidableEq

/-- Python's `int(total_price / nights) if nights > 0 else total_price`: float
division truncated toward zero, i.e. `Int.tdiv` on these values. -/
def pricePerNight (total : Int) (nights : Nat) : Int :=
  if nights > 0 then Int.tdiv total nights else total

/-- The per-hotel body of the parse loop of `_search_booking_com_v2`:
`none` is a `continue` path — a zero price, or (with a truthy budget) a
per-night price above `budget * 1.5`.  The star rating mirrors
`hotel_data.get("propertyClass", 0) or hotel_data.get("accuratePropertyClass", 3)`
followed by `int(star_rating) if star_rating else 3`. -/
def parseBookingV2Hotel (destination : String) (budget : Option Int)
    (nights : Nat) (hotel_data : BookingV2RawHotel) : Option Hotel :=
  let total_price := hotel_data.grossPriceValue.getD 0
  let star0 :=
    match hotel_data.propertyClass with
    | some s => if s ≠ 0 then s else hotel_data.accuratePropertyClass.getD 3
    | none => hotel_data.accuratePropertyClass.getD 3
  let ppn := pricePerNight total_price nights
  let overBudget : Bool :=
    match budget with
    | some b => decide (b ≠ 0) && decide ((ppn : ℚ) > (b : ℚ) * 1.5)
    | none => false
  if total_price = 0 then none
  else if overBudget then none
  else some
    { id := "booking2_" ++ hotel_data.id.getD ""
      name := hotel_data.name.getD "Unknown Hotel"
      star_rating := if star0 = 0 then 3 else star0
      location := destination
      price_total := total_price
      price_with_taxes := total_price
      price_per_night := ppn
      review_score := hotel_data.reviewScore.getD 0
      total_reviews := hotel_data.reviewCount.getD 0
      is_preferred := hotel_data.isPreferredPlus.getD false
      is_real_data := true
      data_source := "Booking.com (Things4u)" }

/-- The parse loop of `_search_booking_com_v2` over the response's hotel
list, capped at 15 raw candidates. -/
def parseBookingV2 (destination : String) (budget : Option Int) (nights : Nat)
    (results_list : List BookingV2RawHotel) : List Hotel :=
  (results_list.take 15).filterMap (parseBookingV2Hotel destination budget nights)

/-- The price sub-score computed inside `_rank_hotels`:
`max(0, 10 - price/budget*5)` when the total price is within
`budget * nights`, `0` above it, and `5` with no budget (Python's falsy
test also covers `budget = 0`). -/
def priceScore (price : Int) (budget : Option Int) (nights : Nat) : ℚ :=
  match budget with
  | none => 5
  | some b =>
      if b = 0 then 5
      else if price ≤ b * nights then max 0 (10 - (price : ℚ) / (b : ℚ) * 5)
      else 0

/-- The composite score of `_rank_hotels`: 30% rating, 25% sentiment,
20% value, 20% price, 5% preferred bonus.  Every parsed hotel carries
`review_score` and `price_total`, so the source's `.get` defaults (7 and
5000) never fire; the source's display rounding to two decimals is not
modelled. -/
def compositeScore (budget : Option Int) (nights : Nat) (h : Hotel) : ℚ :=
  let ra := h.review_analysis
  let rating_score := h.review_score / 10 * 10
  let sentiment_score := ((ra.bind ReviewAnalysis.sentiment_score).getD (7/2)) * 2
  let value_score := ((ra.bind ReviewAnalysis.value_score).getD (7/2)) * 2
  let p_score := priceScore h.price_total budget nights
  let preferred_bonus : ℚ := if h.is_preferred then 1 else 0
  rating_score * 0.30 + sentiment_score * 0.25 + value_score * 0.20
    + p_score * 0.20 + preferred_bonus * 0.05

/-- The per-hotel mutation of `_rank_hotels`: score, nights/rooms, and the
per-night price recalculation. -/
def scoreHotel (budget : Option Int) (nights : Nat) (rooms : Nat) (h : Hotel) : Hotel :=
  { h with
      composite_score := some (compositeScore budget nights h)
      nights := some nights
      rooms := some rooms
      price_per_night := pricePerNight h.price_total nights }

/-- The index `min(range(min(5, len(hotels))), key=lambda i: hotels[i].get("price_total", 999999))`:
the first index among the top five with the lowest total price. -/
def bestValueIdx (hotels : List Hotel) : Nat :=
  (List.range (min 5 hotels.length)).foldl
    (fun best i =>
      if ((hotels.get? i).map Hotel.price_total).getD 999999
          < ((hotels.get? best).map Hotel.price_total).getD 999999 then i else best) 0

/-- The positional badge block at the end of `_rank_hotels`. -/
def addHotelBadges (hotels : List Hotel) : List Hotel :=
  hotels.mapIdx (fun i h =>
    if i = 0 then { h with badge := some "🏆 Best Overall" }
    else if i = 1 then { h with badge := some "⭐ Highly Rated" }
    else if i = 2 then
      if 2 ≤ bestValueIdx hotels then { h with badge := some "💰 Best Value" }
      else { h with badge := some "👍 Great Choice" }
    else h)

/-- The ranker `_rank_hotels`: score every hotel, sort by composite score descending
(`reverse=True` keeps equal keys in input order: a stable sort by `ge`),
then assign positional badges.  No hotel is ever dropped. -/
def rankHotels (hotels : List Hotel) (budget : Option Int) (nights : Nat)
    (rooms : Nat) : List Hotel :=
  addHotelBadges
    ((hotels.map (scoreHotel budget nights rooms)).mergeSort
      (fun a b => decide ((b.composite_score.getD 0) ≤ (a.composite_score.getD 0))))

/-- The claim's example offer: 3500/night against a 3000/night budget. -/
def exRawHotel3500 : BookingV2RawHotel :=
  { id := some "h1", name := some "Sea View", grossPriceValue := some 3500,
    reviewScore := some 8, reviewCount := some 120, propertyClass := some 4,
    isPreferredPlus := some false }

/-- An offer at 5000/night, above 1.5x the 3000/night budget. -/
def exRawHotel5000 : BookingV2RawHotel :=
  { id := some "h2", name := some "Grand Palace", grossPriceValue := some 5000,
    reviewScore := some 9, reviewCount := some 500, propertyClass := some 5,
    isPreferredPlus := some true }

/-- The parsed form of `exRawHotel3500` for one night in Goa. -/
def exHotel3500 : Hotel :=
  { id := "booking2_h1", name := "Sea View", star_rating := 4, location := "Goa",
    price_total := 3500, price_with_taxes := 3500, price_per_night := 3500,
    review_score := 8, total_reviews := 120,
    data_source := "Booking.com (Things4u)" }

/-- C8 counterexample: with a 3000/night budget and one night, an offer at
5000/night is removed from the candidate list by the v2 search's
1.5x-budget filter (the claim's own 3500 example offer is kept). -/
theorem hotel_budget_counterexample :
    parseBookingV2Hotel "Goa" (some 3000) 1 exRawHotel5000 = none ∧
    (parseBookingV2 "Goa" (some 3000) 1 [exRawHotel3500, exRawHotel5000]).map
        Hotel.price_total = [3500] := by
  have h5000 : parseBookingV2Hotel "Goa" (some 3000) 1 exRawHotel5000 = none := by
    unfold parseBookingV2Hotel
    simp only [exRawHotel5000]
    simp
    rw [show pricePerNight 5000 1 = 5000 from by decide]
    norm_num
  have h3500 : parseBookingV2Hotel "Goa" (some 3000) 1 exRawHotel3500
      = some exHotel3500 := by
    unfold parseBookingV2Hotel
    simp only [exRawHotel3500]
    simp [exHotel3500]
    rw [show pricePerNight 3500 1 = 3500 from by decide]
    norm_num
  refine ⟨h5000, ?_⟩
  unfold parseBookingV2
  simp [h3500, h5000, exHotel3500]

/-- C8 amended: with a truthy budget, the v2 search keeps an offer iff its
gross price is non-zero and its per-night price is at most `1.5 * budget`
(so merely over-budget offers such as 3500 against 3000 are kept); ranking
itself never excludes — above the total budget the price sub-score is `0`,
and `_rank_hotels` preserves the number of candidates. -/
theorem hotel_budget_scoring (dest : String) (b : Int) (nights : Nat)
    (raw : BookingV2RawHotel) (hb : b ≠ 0) :
    ((parseBookingV2Hotel dest (some b) nights raw).isSome = true ↔
      (raw.grossPriceValue.getD 0 ≠ 0 ∧
        ¬ ((pricePerNight (raw.grossPriceValue.getD 0) nights : ℚ) > (b : ℚ) * 1.5))) ∧
    (∀ h : Hotel, h.price_total > b * nights →
      priceScore h.price_total (some b) nights = 0) ∧
    (∀ hotels : List Hotel, ∀ rooms : Nat,
      (rankHotels hotels (some b) nights rooms).length = hotels.length) := by
  refine ⟨?_, ?_, ?_⟩
  · unfold parseBookingV2Hotel
    by_cases h0 : raw.grossPriceValue.getD 0 = 0
    · simp [h0]
    · by_cases hover : (pricePerNight (raw.grossPriceValue.getD 0) nights : ℚ) > (b : ℚ) * 1.5
      · simp [h0, hb, hover]
      · simp [h0, hb, hover]
  · intro h hgt
    simp [priceScore, hb, not_le.mpr hgt]
  · intro hotels rooms
    unfold rankHotels addHotelBadges
    rw [List.length_mapIdx, (List.mergeSort_perm _ _).length_eq, List.length_map]

/-- Witness for `hotel_budget_scoring`: the claim's 3500-vs-3000 example is
kept, its price sub-score is zero, and ranking keeps it. -/
theorem hotel_budget_scoring_witness :
    (3000 : Int) ≠ 0 ∧
    (parseBookingV2Hotel "Goa" (some 3000) 1 exRawHotel3500).isSome = true ∧
    (exHotel3500.price_total > 3000 * (1 : Nat) ∧
      priceScore exHotel3500.price_total (some 3000) 1 = 0) ∧
    (rankHotels [exHotel3500] (some 3000) 1 1).length = [exHotel3500].length :=
  ⟨by decide,
   ((hotel_budget_scoring "Goa" 3000 1 exRawHotel3500 (by decide)).1).mpr
     ⟨by decide, by
       rw [show exRawHotel3500.grossPriceValue.getD 0 = 3500 from rfl,
         show pricePerNight 3500 1 = 3500 from by decide]
       norm_num⟩,
   ⟨by decide,
    (hotel_budget_scoring "Goa" 3000 1 exRawHotel3500 (by decide)).2.1 exHotel3500 (by decide)⟩,
   (hotel_budget_scoring "Goa" 3000 1 exRawHotel3500 (by decide)).2.2 [exHotel3500] 1⟩

/-! ### Itinerary enrichment (`orchestrator._enrich_places_parallel`) -/

/-- The `practicalInfo` object the orchestrator builds from the research
result. -/
structure PracticalInfo where
  typicalDuration : Option String := none
  openingHours : Option String := none
  ticketInfo : Option String := none
  bestTimeToVisit : Option String := none
  dressCode : Option String := none
  importantTips : List String := []
  warnings : List String := []
  specialEvents : List String := []
  crowdPredictions : Option String := none
  deriving Repr, DecidableEq

/-- The fields of `slot["place"]` the enrichment loop touches, plus the
place name. -/
structure PlaceInfo where
  name : String := ""
  images : List String := []
  rating : Option ℚ := none
  totalReviews : Option Nat := none
  reviewSummary : Option String := none
  googleMapsUrl : Option String := none
  address : Option String := none
  practicalInfo : Option PracticalInfo := none
  deriving Repr, DecidableEq

/-- The research result of `place_research_agent.research_place` (fields
the orchestrator reads; `none` for what the agent could not find). -/
structure ResearchData where
  visit_duration : Option String := none
  opening_hours : Option String := none
  ticket_info : Option String := none
  best_time_to_visit : Option String := none
  dress_code : Option String := none
  practical_tips : Option (List String) := none
  warnings : Option (List String) := none
  special_events : Option (List String) := none
  deriving Repr, DecidableEq

/-- The photo/review result of `photo_review_agent.research_place`: the
agent initialises `rating`, `total_reviews`, … to `None` and `images` to
`[]` and may leave them so when every provider comes back empty. -/
structure PhotoData where
  images : Option (List String) := none
  rating : Option ℚ := none
  total_reviews : Option Nat := none
  review_summary : Option String := none
  google_maps_url : Option String := none
  address : Option String := none
  deriving Repr, DecidableEq

/-- The per-slot assignment block of `_enrich_places_parallel`: every
photo-derived field of the place is assigned the new result's value
unconditionally (`[]` when `images` is missing), and `practicalInfo` is
rebuilt from the research result. -/
def applyEnrichment (research : ResearchData) (photos : PhotoData)
    (crowd : Option String) (place : PlaceInfo) : PlaceInfo :=
  { place with
      practicalInfo := some
        { typicalDuration := research.visit_duration
          openingHours := research.opening_hours
          ticketInfo := research.ticket_info
          bestTimeToVisit := research.best_time_to_visit
          dressCode := research.dress_code
          importantTips := research.practical_tips.getD []
          warnings := research.warnings.getD []
          specialEvents := research.special_events.getD []
          crowdPredictions := crowd }
      images := photos.images.getD []
      rating := photos.rating
      totalReviews := photos.total_reviews
      reviewSummary := photos.review_summary
      googleMapsUrl := photos.google_maps_url
      address := photos.address }

/-- One schedule slot.  The loop also copies the crowd data onto the slot
itself. -/
structure Slot where
  isMeal : Bool := false
  place : Option PlaceInfo := none
  crowdPredictions : Option String := none
  deriving Repr, DecidableEq

/-- Applying the enrichment map to one slot, as in the final loop of
`_enrich_places_parallel`: only non-meal slots holding a place whose name
is in the map are touched. -/
def enrichSlot (enriched : String → Option (ResearchData × PhotoData × Option String))
    (slot : Slot) : Slot :=
  match slot.place, slot.isMeal with
  | some p, false =>
      match enriched p.name with
      | some (research, photos, crowd) =>
          { slot with
              place := some (applyEnrichment research photos crowd p)
              crowdPredictions := crowd }
      | none => slot
  | _, _ => slot

/-- A place that has already been enriched once. -/
def exEnrichedPlace : PlaceInfo :=
  { name := "Gateway of India", images := ["https://img/1.jpg"],
    rating := some (9/2), totalReviews := some 1200,
    reviewSummary := some "Iconic", googleMapsUrl := some "https://maps/x",
    address := some "Apollo Bandar, Mumbai" }

/-- A re-run photo result that found nothing: exactly the initial record of
`photo_review_agent.research_place` when every provider comes back empty. -/
def exEmptyPhotos : PhotoData := { images := some [] }

/-- C9 counterexample: re-running enrichment with a photo result that
provides no rating and no address erases the previously populated fields —
the rating and address become `None` and the images become `[]`. -/
theorem enrichment_overwrite_counterexample :
    exEnrichedPlace.rating = some (9/2) ∧ exEmptyPhotos.rating = none ∧
    (applyEnrichment {} exEmptyPhotos none exEnrichedPlace).rating = none ∧
    exEnrichedPlace.address ≠ none ∧
    (applyEnrichment {} exEmptyPhotos none exEnrichedPlace).address = none ∧
    (applyEnrichment {} exEmptyPhotos none exEnrichedPlace).images = [] :=
  ⟨rfl, rfl, rfl, Option.some_ne_none _, rfl, rfl⟩

/-- C9 amended: the enrichment assignments are unconditional — every
photo-derived field of the place takes the new result's value (null or
not, with `[]` for missing images) while the name is untouched; a slot is
left unchanged only when it is a meal slot or its place name is absent
from the enrichment map. -/
theorem enrichment_overwrites (research : ResearchData) (photos : PhotoData)
    (crowd : Option String) (p : PlaceInfo)
    (lookup : String → Option (ResearchData × PhotoData × Option String))
    (slot : Slot) :
    (applyEnrichment research photos crowd p).rating = photos.rating ∧
    (applyEnrichment research photos crowd p).images = photos.images.getD [] ∧
    (applyEnrichment research photos crowd p).totalReviews = photos.total_reviews ∧
    (applyEnrichment research photos crowd p).reviewSummary = photos.review_summary ∧
    (applyEnrichment research photos crowd p).googleMapsUrl = photos.google_maps_url ∧
    (applyEnrichment research photos crowd p).address = photos.address ∧
    (applyEnrichment research photos crowd p).name = p.name ∧
    (slot.isMeal = true → enrichSlot lookup slot = slot) ∧
    (∀ q, slot.place = some q → lookup q.name = none → enrichSlot lookup slot = slot) := by
  refine ⟨rfl, rfl, rfl, rfl, rfl, rfl, rfl, ?_, ?_⟩
  · intro hm
    cases hsp : slot.place with
    | none => simp [enrichSlot, hm, hsp]
    | some q => simp [enrichSlot, hm, hsp]
  · intro q hq hlook
    cases hm : slot.isMeal with
    | true => simp [enrichSlot, hm, hq]
    | false => simp [enrichSlot, hm, hq, hlook]

/-- A fresh photo result carrying new values for every field. -/
def exNewPhotos : PhotoData :=
  { images := some ["https://img/2.jpg"], rating := some 4,
    total_reviews := some 1500, review_summary := some "Great",
    google_maps_url := some "https://maps/y", address := some "Colaba" }

/-- A meal slot, which enrichment must leave untouched. -/
def exMealSlot : Slot := { isMeal := true, place := some exEnrichedPlace }

/-- Witness for `enrichment_overwrites`. -/
theorem enrichment_overwrites_witness :
    exMealSlot.isMeal = true ∧
    enrichSlot (fun _ => none) exMealSlot = exMealSlot ∧
    (applyEnrichment {} exNewPhotos none exEnrichedPlace).rating = exNewPhotos.rating :=
  ⟨by decide,
   (enrichment_overwrites {} exNewPhotos none exEnrichedPlace (fun _ => none)
     exMealSlot).2.2.2.2.2.2.2.1 (by decide),
   (enrichment_overwrites {} exNewPhotos none exEnrichedPlace (fun _ => none)
     exMealSlot).1⟩

end TravelPlanner
